import Mathlib

/-!
Verification of the terminal image viewer `iv` (src/iv.c): a shallow
embedding of its grid-layout engine, scroll-into-view maintenance, kitty
inline-image protocol encoder, navigation key handling, main-loop mode
state machine, and CLI startup error handling, together with proofs of
the specified properties.

C `int` arithmetic is modelled on `Int`/`Nat` (all quantities stay far
below 2^31 overflow, and `size_t`/`int` values involved are
non-negative, except the scroll offset which is kept as `Int`).
-/

namespace IV

/-! ## Configuration constants (src/iv.c lines 18-21) -/

def THUMB_ROWS : Nat := 5
def THUMB_COLS : Nat := 10
def SPACING_ROWS : Nat := 1
def SPACING_COLS : Nat := 2

/-! ## Grid geometry (src/iv.c `adjust_scroll_for_selection`, `render_grid`)

`row_height = THUMB_ROWS + SPACING_ROWS; if (row_height < 1) row_height = 1;`
`visible_rows = ws.ws_row / row_height; if (visible_rows < 1) visible_rows = 1;`
`total_rows = (list->count + grid_cols - 1) / grid_cols;`
`sel_row = selected / grid_cols;`
-/

def rowHeight : Nat := max (THUMB_ROWS + SPACING_ROWS) 1

def visibleRows (wsRow : Nat) : Nat := max (wsRow / rowHeight) 1

def totalRows (count cols : Nat) : Nat := (count + cols - 1) / cols

def selRow (selected cols : Nat) : Nat := selected / cols

/-- Grid position of item `i`: `(i / grid_cols, i % grid_cols)` as used in
`render_grid` (`i = row * grid_cols + col`). -/
def itemPos (i cols : Nat) : Nat × Nat := (i / cols, i % cols)

/-! ## Scroll adjustment (src/iv.c lines 337-370) -/

/-- The scroll-into-view step of `adjust_scroll_for_selection`:
`if (sel_row < scroll_offset) scroll_offset = sel_row;`
`else if (sel_row >= scroll_offset + visible_rows)`
`  scroll_offset = sel_row - visible_rows + 1;` -/
def scrollIntoView (sel_row visible_rows : Nat) (so : Int) : Int :=
  if (sel_row : Int) < so then (sel_row : Int)
  else if (sel_row : Int) ≥ so + (visible_rows : Int) then
    (sel_row : Int) - (visible_rows : Int) + 1
  else so

/-- The clamping tail of `adjust_scroll_for_selection` (lines 363-369),
also repeated verbatim in `render_grid` (lines 394-400):
`if (scroll_offset < 0) scroll_offset = 0;`
`if (scroll_offset > total_rows - visible_rows)`
`  scroll_offset = total_rows - visible_rows;`
`if (scroll_offset < 0) scroll_offset = 0;` -/
def clampScroll (total_rows visible_rows : Nat) (so : Int) : Int :=
  let so1 := if so < 0 then 0 else so
  let so2 := if so1 > (total_rows : Int) - (visible_rows : Int) then
    (total_rows : Int) - (visible_rows : Int) else so1
  if so2 < 0 then 0 else so2

/-- `adjust_scroll_for_selection` (src/iv.c lines 337-370): computes
`visible_rows`, `total_rows`, `sel_row` from the inputs, applies the
scroll-into-view rule to the current offset and clamps the result.
`wsRow` is the terminal row count obtained from `ioctl` (24 on failure). -/
def adjust_scroll_for_selection (count cols selected wsRow : Nat) (so : Int) : Int :=
  clampScroll (totalRows count cols) (visibleRows wsRow)
    (scrollIntoView (selRow selected cols) (visibleRows wsRow) so)

/-! ## Helper lemmas about the geometry -/

lemma one_le_visibleRows (wsRow : Nat) : 1 ≤ visibleRows wsRow :=
  le_max_right _ _

lemma selRow_lt_totalRows {count cols selected : Nat} (hcols : 0 < cols)
    (hsel : selected < count) : selRow selected cols < totalRows count cols := by
  unfold selRow totalRows
  have hc1 : 1 ≤ count := Nat.one_le_iff_ne_zero.mpr (by omega)
  have h1 : count + cols - 1 = (count - 1) + cols := by omega
  rw [h1, Nat.add_div_right _ hcols]
  have h2 : selected / cols ≤ (count - 1) / cols :=
    Nat.div_le_div_right (by omega)
  omega

/-- The three sequential clamping `if`s equal one min/max formula. -/
lemma clampScroll_eq (T V : Nat) (r : Int) :
    clampScroll T V r = max (min (max r 0) ((T : Int) - (V : Int))) 0 := by
  simp only [clampScroll]
  split_ifs <;> omega

/-- The scroll-into-view step alone puts the selected row inside the
window `[offset, offset + visible_rows)`. -/
lemma scrollIntoView_window (s V : Nat) (so : Int) (hV : 1 ≤ V) :
    scrollIntoView s V so ≤ (s : Int) ∧
    (s : Int) < scrollIntoView s V so + (V : Int) := by
  unfold scrollIntoView
  split_ifs <;> omega

/-- Core behaviour of scroll-into-view followed by the clamp, for abstract
row numbers: bounds and the visibility window, assuming at least one
visible row and a selected row inside the grid. -/
lemma clamp_scrollIntoView_spec (s T V : Nat) (so : Int) (hV : 1 ≤ V)
    (hsT : s < T) :
    0 ≤ clampScroll T V (scrollIntoView s V so) ∧
    clampScroll T V (scrollIntoView s V so) ≤ max 0 ((T : Int) - (V : Int)) ∧
    clampScroll T V (scrollIntoView s V so) ≤ (s : Int) ∧
    (s : Int) < clampScroll T V (scrollIntoView s V so) + (V : Int) := by
  have hw := scrollIntoView_window s V so hV
  rw [clampScroll_eq]
  omega

/-- The composite is idempotent for every input (the code keeps at least
one visible row, which is all that is needed). -/
lemma clamp_scrollIntoView_idem (s T V : Nat) (so : Int) (hV : 1 ≤ V) :
    clampScroll T V (scrollIntoView s V (clampScroll T V (scrollIntoView s V so))) =
      clampScroll T V (scrollIntoView s V so) := by
  simp only [clampScroll_eq, scrollIntoView]
  split_ifs <;> omega

/-! ## Claim theorems: scroll and geometry -/

/-- C1: for every input state with `columns > 0` and a valid selected
index, after `adjust_scroll_for_selection` the scroll offset satisfies
`0 ≤ scroll_offset ≤ max 0 (total_rows - visible_rows)` and the selected
row `sel_row = selected / columns` lies in
`[scroll_offset, scroll_offset + visible_rows)`. -/
theorem c1_scroll_invariant (count cols selected wsRow : Nat) (so : Int)
    (hcols : 0 < cols) (hsel : selected < count) :
    0 ≤ adjust_scroll_for_selection count cols selected wsRow so ∧
    adjust_scroll_for_selection count cols selected wsRow so ≤
      max 0 ((totalRows count cols : Int) - (visibleRows wsRow : Int)) ∧
    adjust_scroll_for_selection count cols selected wsRow so ≤
      (selRow selected cols : Int) ∧
    (selRow selected cols : Int) <
      adjust_scroll_for_selection count cols selected wsRow so +
        (visibleRows wsRow : Int) := by
  have h := clamp_scrollIntoView_spec (selRow selected cols)
    (totalRows count cols) (visibleRows wsRow) so (one_le_visibleRows wsRow)
    (selRow_lt_totalRows hcols hsel)
  exact h

theorem c1_scroll_invariant_witness :
    0 < 4 ∧ 9 < 10 ∧
    (0 ≤ adjust_scroll_for_selection 10 4 9 12 0 ∧
     adjust_scroll_for_selection 10 4 9 12 0 ≤
       max 0 ((totalRows 10 4 : Int) - (visibleRows 12 : Int)) ∧
     adjust_scroll_for_selection 10 4 9 12 0 ≤ (selRow 9 4 : Int) ∧
     (selRow 9 4 : Int) <
       adjust_scroll_for_selection 10 4 9 12 0 + (visibleRows 12 : Int)) :=
  ⟨by decide, by decide, c1_scroll_invariant 10 4 9 12 0 (by decide) (by decide)⟩

/-- C2: the scroll adjustment follows the minimal-scroll rule — with
`sel_row = selected / columns`, if `sel_row < scroll_offset` the new
offset is `sel_row`; if `sel_row ≥ scroll_offset + visible_rows` it is
`sel_row - visible_rows + 1`; otherwise it is unchanged — and the final
offset is the clamp of that rule's result.  In the concrete scenario
with 10 items, 4 columns, selection 9, 12 terminal rows (2 visible grid
rows) and prior offset 0, the new offset is 1. -/
theorem c2_minimal_scroll_rule :
    (∀ (s V : Nat) (so : Int), scrollIntoView s V so =
      if (s : Int) < so then (s : Int)
      else if (s : Int) ≥ so + (V : Int) then (s : Int) - (V : Int) + 1
      else so) ∧
    (∀ (count cols selected wsRow : Nat) (so : Int),
      adjust_scroll_for_selection count cols selected wsRow so =
        clampScroll (totalRows count cols) (visibleRows wsRow)
          (scrollIntoView (selRow selected cols) (visibleRows wsRow) so)) ∧
    visibleRows 12 = 2 ∧ totalRows 10 4 = 3 ∧ selRow 9 4 = 2 ∧
    scrollIntoView 2 2 0 = 1 ∧
    adjust_scroll_for_selection 10 4 9 12 0 = 1 :=
  ⟨fun _ _ _ => rfl, fun _ _ _ _ _ => rfl, by decide, by decide, by decide,
   by decide, by decide⟩

/-- C8: the layout/scroll computation is idempotent — running
`adjust_scroll_for_selection` a second time with the same item count,
columns, selection and terminal size returns the offset unchanged (the
embedding is a pure function of these inputs and the previous offset,
mirroring that the C function's only effect is the new offset stored in
`scroll_offset`). -/
theorem c8_adjust_scroll_idempotent (count cols selected wsRow : Nat) (so : Int) :
    adjust_scroll_for_selection count cols selected wsRow
      (adjust_scroll_for_selection count cols selected wsRow so) =
    adjust_scroll_for_selection count cols selected wsRow so :=
  clamp_scrollIntoView_idem (selRow selected cols) (totalRows count cols)
    (visibleRows wsRow) so (one_le_visibleRows wsRow)

/-- C4: for every item count and `columns > 0`, `total_rows` is exactly
`ceil(item_count / columns)` (characterised by
`count ≤ total_rows * columns < count + columns`), and every index `i`
maps to the unique cell `(i / columns, i % columns)`, i.e.
`row * columns + col = i` and any `(r, c)` with `c < columns` and
`r * columns + c = i` equals `itemPos i columns`. -/
theorem c4_grid_geometry (count cols i : Nat) (hcols : 0 < cols) :
    (count ≤ totalRows count cols * cols ∧
     totalRows count cols * cols < count + cols) ∧
    (itemPos i cols).1 * cols + (itemPos i cols).2 = i ∧
    (∀ r c : Nat, c < cols → r * cols + c = i → (r, c) = itemPos i cols) := by
  refine ⟨?_, ?_, ?_⟩
  · unfold totalRows
    have hdm := Nat.div_add_mod (count + cols - 1) cols
    have hmod : (count + cols - 1) % cols < cols := Nat.mod_lt _ hcols
    rw [Nat.mul_comm]
    generalize hq : cols * ((count + cols - 1) / cols) = p at hdm ⊢
    omega
  · show i / cols * cols + i % cols = i
    calc i / cols * cols + i % cols = cols * (i / cols) + i % cols := by
          rw [Nat.mul_comm]
      _ = i := Nat.div_add_mod i cols
  · intro r c hc hrc
    unfold itemPos
    have hdiv : i / cols = r := by
      rw [← hrc, Nat.add_comm, Nat.add_mul_div_right c r hcols,
        Nat.div_eq_of_lt hc, Nat.zero_add]
    have hmod : i % cols = c := by
      rw [← hrc, Nat.add_comm, Nat.add_mul_mod_self_right,
        Nat.mod_eq_of_lt hc]
    simp [hdiv, hmod]

theorem c4_grid_geometry_witness :
    0 < 4 ∧
    ((10 ≤ totalRows 10 4 * 4 ∧ totalRows 10 4 * 4 < 10 + 4) ∧
     (itemPos 9 4).1 * 4 + (itemPos 9 4).2 = 9 ∧
     (∀ r c : Nat, c < 4 → r * 4 + c = 9 → (r, c) = itemPos 9 4)) :=
  ⟨by decide, c4_grid_geometry 10 4 9 (by decide)⟩

/-! ## Grid-mode key handling (src/iv.c main loop, lines 579-603)

Keystrokes are the bytes returned by `read_keypress`:
`'h' = 104`, `'l' = 108`, `'k' = 107`, `'j' = 106`, `'q' = 113`,
`'\n' = 10`, `'\r' = 13`, `ESC = 27`.  `selected - grid_cols >= 0` over C
`int`s is modelled as `cols ≤ selected`. -/

def gridKey (count cols selected : Nat) (ch : Nat) : Nat :=
  if ch = 104 then
    if selected % cols > 0 then selected - 1 else selected
  else if ch = 108 then
    if selected + 1 < count ∧ selected % cols < cols - 1 then selected + 1
    else selected
  else if ch = 107 then
    if cols ≤ selected then selected - cols else selected
  else if ch = 106 then
    if selected + cols < count then selected + cols else selected
  else selected

/-- Stepping left or right within a row does not change the row index. -/
lemma div_stable_of_mod (q r cols x : Nat) (hcols : 0 < cols) (hr : r < cols)
    (hx : x = cols * q + r) : x / cols = q := by
  subst hx
  rw [Nat.mul_add_div hcols, Nat.div_eq_of_lt hr, Nat.add_zero]

/-- C3: with a non-empty item list and a valid selection, every grid-mode
keystroke leaves `selected` a valid index; at `selected = 0` the keys
`h` and `k` are no-ops; at `selected = item_count - 1` the keys `l` and
`j` are no-ops; and `h`/`l` never change the row `selected / columns`. -/
theorem c3_navigation_boundaries (count cols selected : Nat)
    (hcols : 0 < cols) (hsel : selected < count) :
    (∀ ch, gridKey count cols selected ch < count) ∧
    gridKey count cols 0 104 = 0 ∧
    gridKey count cols 0 107 = 0 ∧
    gridKey count cols (count - 1) 108 = count - 1 ∧
    gridKey count cols (count - 1) 106 = count - 1 ∧
    gridKey count cols selected 104 / cols = selected / cols ∧
    gridKey count cols selected 108 / cols = selected / cols := by
  have hmod : selected % cols < cols := Nat.mod_lt _ hcols
  have hdm : cols * (selected / cols) + selected % cols = selected :=
    Nat.div_add_mod selected cols
  refine ⟨?_, ?_, ?_, ?_, ?_, ?_, ?_⟩
  · intro ch
    unfold gridKey
    split_ifs <;> omega
  · unfold gridKey
    split_ifs <;> omega
  · unfold gridKey
    split_ifs <;> omega
  · unfold gridKey
    split_ifs <;> omega
  · unfold gridKey
    split_ifs <;> omega
  · show (if selected % cols > 0 then selected - 1 else selected) / cols =
      selected / cols
    split_ifs with hpos
    · exact div_stable_of_mod (selected / cols) (selected % cols - 1) cols _
        hcols (by omega) (by omega)
    · rfl
  · show (if selected + 1 < count ∧ selected % cols < cols - 1 then
        selected + 1 else selected) / cols = selected / cols
    split_ifs with hcond
    · exact div_stable_of_mod (selected / cols) (selected % cols + 1) cols _
        hcols (by omega) (by omega)
    · rfl

theorem c3_navigation_boundaries_witness :
    0 < 4 ∧ 9 < 10 ∧
    ((∀ ch, gridKey 10 4 9 ch < 10) ∧
     gridKey 10 4 0 104 = 0 ∧
     gridKey 10 4 0 107 = 0 ∧
     gridKey 10 4 (10 - 1) 108 = 10 - 1 ∧
     gridKey 10 4 (10 - 1) 106 = 10 - 1 ∧
     gridKey 10 4 9 104 / 4 = 9 / 4 ∧
     gridKey 10 4 9 108 / 4 = 9 / 4) :=
  ⟨by decide, by decide, c3_navigation_boundaries 10 4 9 (by decide) (by decide)⟩

/-! ## Base64 path encoding (src/iv.c `b64encode_path`, lines 235-273)

Paths are byte lists.  The C loop consumes three bytes per iteration,
accumulating `v` with `v <<= 8; v |= byte` and counting missing bytes in
`pad`; the tail cases below are the `pad = 2` / `pad = 1` iterations. -/

def b64tbl : List Char :=
  "ABCDEFGHIJKLMNOPQRSTUVWXYZabcdefghijklmnopqrstuvwxyz0123456789+/".toList

/-- `tbl[n]` of the C encoder (only ever used with `n < 64`). -/
def tblChar (n : Nat) : Char := b64tbl.getD n 'A'

def b64encode_path : List Nat → List Char
  | [] => []
  | [b1] =>
    let v := (b1 <<< 8) <<< 8
    [tblChar ((v >>> 18) &&& 63), tblChar ((v >>> 12) &&& 63), '=', '=']
  | [b1, b2] =>
    let v := ((b1 <<< 8) ||| b2) <<< 8
    [tblChar ((v >>> 18) &&& 63), tblChar ((v >>> 12) &&& 63),
     tblChar ((v >>> 6) &&& 63), '=']
  | b1 :: b2 :: b3 :: rest =>
    let v := (((b1 <<< 8) ||| b2) <<< 8) ||| b3
    [tblChar ((v >>> 18) &&& 63), tblChar ((v >>> 12) &&& 63),
     tblChar ((v >>> 6) &&& 63), tblChar (v &&& 63)] ++ b64encode_path rest

/-! ## Standard base64 decoding (modelled from the spec's words: "the
path is encoded using standard base64 (alphabet `A-Z a-z 0-9 + /`,
`=` padding, no line wrapping)"; the decoder is the inverse reading of
that standard format, used to state the round-trip property). -/

def b64decChar (c : Char) : Option Nat :=
  List.findIdx? (fun x => x == c) b64tbl

def b64decode : List Char → Option (List Nat)
  | [] => some []
  | c1 :: c2 :: c3 :: c4 :: rest =>
    match b64decChar c1, b64decChar c2 with
    | some v1, some v2 =>
      if c3 = '=' then
        if c4 = '=' ∧ rest = [] then some [v1 * 4 + v2 / 16] else none
      else
        match b64decChar c3 with
        | some v3 =>
          if c4 = '=' then
            if rest = [] then
              some [v1 * 4 + v2 / 16, v2 % 16 * 16 + v3 / 4]
            else none
          else
            match b64decChar c4, b64decode rest with
            | some v4, some bs =>
              some ((v1 * 4 + v2 / 16) :: (v2 % 16 * 16 + v3 / 4) ::
                (v3 % 4 * 64 + v4) :: bs)
            | _, _ => none
        | none => none
    | _, _ => none
  | _ => none

lemma tblChar_dec : ∀ n : Nat, n < 64 → b64decChar (tblChar n) = some n := by
  decide

lemma tblChar_ne_pad : ∀ n : Nat, n < 64 → tblChar n ≠ '=' := by
  decide

lemma and63_eq_mod (x : Nat) : x &&& 63 = x % 64 := by
  have h := Nat.and_pow_two_sub_one_eq_mod x 6
  norm_num at h
  exact h

lemma shl8_lor_eq (a b : Nat) (hb : b < 256) :
    (a <<< 8) ||| b = a * 256 + b := by
  have hb' : b < 2 ^ 8 := by omega
  rw [Nat.shiftLeft_eq]
  calc a * 2 ^ 8 ||| b = 2 ^ 8 * a ||| b := by rw [Nat.mul_comm]
    _ = 2 ^ 8 * a + b := (Nat.mul_add_lt_is_or hb' a).symm
    _ = a * 256 + b := by ring_nf

lemma encode_v3 (b1 b2 b3 : Nat) (h2 : b2 < 256) (h3 : b3 < 256) :
    (((b1 <<< 8) ||| b2) <<< 8) ||| b3 = b1 * 65536 + b2 * 256 + b3 := by
  rw [shl8_lor_eq b1 b2 h2, shl8_lor_eq _ b3 h3]
  ring_nf

lemma encode_v2 (b1 b2 : Nat) (h2 : b2 < 256) :
    ((b1 <<< 8) ||| b2) <<< 8 = b1 * 65536 + b2 * 256 := by
  rw [shl8_lor_eq b1 b2 h2, Nat.shiftLeft_eq]
  ring_nf

lemma encode_v1 (b1 : Nat) : (b1 <<< 8) <<< 8 = b1 * 65536 := by
  rw [Nat.shiftLeft_eq, Nat.shiftLeft_eq]
  ring_nf

/-- Decoding one full 4-character group produced from table characters. -/
lemma b64decode_group (s1 s2 s3 s4 : Nat) (hs1 : s1 < 64) (hs2 : s2 < 64)
    (hs3 : s3 < 64) (hs4 : s4 < 64) (rest : List Char) :
    b64decode (tblChar s1 :: tblChar s2 :: tblChar s3 :: tblChar s4 :: rest) =
      (b64decode rest).map
        (fun bs => (s1 * 4 + s2 / 16) :: (s2 % 16 * 16 + s3 / 4) ::
          (s3 % 4 * 64 + s4) :: bs) := by
  simp only [b64decode]
  rw [tblChar_dec s1 hs1, tblChar_dec s2 hs2, tblChar_dec s3 hs3,
    tblChar_dec s4 hs4]
  simp only [if_neg (tblChar_ne_pad s3 hs3), if_neg (tblChar_ne_pad s4 hs4)]
  cases b64decode rest <;> rfl

lemma b64decode_pad2 (s1 s2 : Nat) (hs1 : s1 < 64) (hs2 : s2 < 64) :
    b64decode [tblChar s1, tblChar s2, '=', '='] =
      some [s1 * 4 + s2 / 16] := by
  simp only [b64decode]
  rw [tblChar_dec s1 hs1, tblChar_dec s2 hs2]
  simp

lemma b64decode_pad1 (s1 s2 s3 : Nat) (hs1 : s1 < 64) (hs2 : s2 < 64)
    (hs3 : s3 < 64) :
    b64decode [tblChar s1, tblChar s2, tblChar s3, '='] =
      some [s1 * 4 + s2 / 16, s2 % 16 * 16 + s3 / 4] := by
  simp only [b64decode]
  rw [tblChar_dec s1 hs1, tblChar_dec s2 hs2, tblChar_dec s3 hs3]
  simp [tblChar_ne_pad s3 hs3]

lemma b64_roundtrip (bs : List Nat) (h : ∀ b ∈ bs, b < 256) :
    b64decode (b64encode_path bs) = some bs := by
  induction bs using b64encode_path.induct with
  | case1 => simp [b64encode_path, b64decode]
  | case2 b1 =>
    have h1 : b1 < 256 := h b1 (by simp)
    simp only [b64encode_path, encode_v1, Nat.shiftRight_eq_div_pow,
      and63_eq_mod]
    rw [b64decode_pad2 _ _ (by omega) (by omega)]
    simp only [Option.some.injEq, List.cons.injEq, and_true]
    omega
  | case3 b1 b2 =>
    have h1 : b1 < 256 := h b1 (by simp)
    have h2 : b2 < 256 := h b2 (by simp)
    simp only [b64encode_path, encode_v2 b1 b2 h2, Nat.shiftRight_eq_div_pow,
      and63_eq_mod]
    rw [b64decode_pad1 _ _ _ (by omega) (by omega) (by omega)]
    simp only [Option.some.injEq, List.cons.injEq, and_true]
    exact ⟨by omega, by omega⟩
  | case4 b1 b2 b3 rest ih =>
    have h1 : b1 < 256 := h b1 (by simp)
    have h2 : b2 < 256 := h b2 (by simp)
    have h3 : b3 < 256 := h b3 (by simp)
    have hrest : ∀ b ∈ rest, b < 256 := fun b hb => h b (by simp [hb])
    simp only [b64encode_path, encode_v3 b1 b2 b3 h2 h3,
      Nat.shiftRight_eq_div_pow, and63_eq_mod, List.cons_append,
      List.nil_append]
    rw [b64decode_group _ _ _ _ (by omega) (by omega) (by omega) (by omega)]
    rw [ih hrest]
    simp only [Option.map_some', Option.some.injEq, List.cons.injEq, and_true]
    refine ⟨by omega, by omega, by omega⟩

/-! ## Kitty protocol output (src/iv.c lines 279-325)

Output is modelled as the byte (char) list written to stdout.
`display_thumbnail_kitty(NULL)` prints the placeholder `[?]`;
otherwise `printf("\x1b_Ga=T,f=100,t=f,c=%d,r=%d,C=1;%s\x1b\\", ...)`. -/

def escCh : Char := '\x1b'

/-- `%d` rendering of a natural number. -/
def natChars (n : Nat) : List Char := (Nat.repr n).toList

def kittyDisplayCmd (cols rows : Nat) (b64 : List Char) : List Char :=
  "\x1b_Ga=T,f=100,t=f,c=".toList ++ natChars cols ++ ",r=".toList ++
    natChars rows ++ ",C=1;".toList ++ b64 ++ "\x1b\\".toList

def display_thumbnail_kitty : Option (List Nat) → List Char
  | none => "[?]".toList
  | some path => kittyDisplayCmd THUMB_COLS THUMB_ROWS (b64encode_path path)

def display_focus_kitty : Option (List Nat) → List Char
  | none => []
  | some path => kittyDisplayCmd 80 24 (b64encode_path path)

def kitty_delete_all : List Char := "\x1b_Ga=d\x1b\\".toList

/-- Whether the byte sequence contains the image control-sequence
introducer `ESC _ G` anywhere. -/
def hasCtrlSeqStart : List Char → Bool
  | [] => false
  | a :: rest =>
    (a == escCh && match rest with
      | '_' :: 'G' :: _ => true
      | _ => false) || hasCtrlSeqStart rest

/-- C5: decoding the base64 payload of the display output reproduces the
original path byte-for-byte, and for an absent bitmap path the encoder
emits the visible placeholder `[?]`, which contains no image
control-sequence prefix `ESC _ G`. -/
theorem c5_base64_roundtrip_and_placeholder (bs : List Nat)
    (h : ∀ b ∈ bs, b < 256) :
    b64decode (b64encode_path bs) = some bs ∧
    display_thumbnail_kitty none = "[?]".toList ∧
    hasCtrlSeqStart (display_thumbnail_kitty none) = false :=
  ⟨b64_roundtrip bs h, rfl, by decide⟩

theorem c5_base64_roundtrip_and_placeholder_witness :
    (∀ b ∈ [47, 116, 109, 112], b < 256) ∧
    (b64decode (b64encode_path [47, 116, 109, 112]) =
        some [47, 116, 109, 112] ∧
      display_thumbnail_kitty none = "[?]".toList ∧
      hasCtrlSeqStart (display_thumbnail_kitty none) = false) :=
  ⟨by decide, c5_base64_roundtrip_and_placeholder [47, 116, 109, 112]
    (by decide)⟩

/-- C6: the display output for a path is exactly the byte sequence
`ESC _ G a=T,f=100,t=f,c=10,r=5,C=1 ; base64(path) ESC \` (with the
thumbnail cell size `c=10,r=5`), and the clear-all output is exactly
`ESC _ G a=d ESC \`.  Both are pure functions of the path, so encoding
the same path always yields byte-identical output. -/
theorem c6_wire_format (path : List Nat) :
    display_thumbnail_kitty (some path) =
      [escCh, '_', 'G', 'a', '=', 'T', ',', 'f', '=', '1', '0', '0', ',',
       't', '=', 'f', ',', 'c', '=', '1', '0', ',', 'r', '=', '5', ',',
       'C', '=', '1', ';'] ++ b64encode_path path ++ [escCh, '\\'] ∧
    kitty_delete_all = [escCh, '_', 'G', 'a', '=', 'd', escCh, '\\'] :=
  ⟨rfl, rfl⟩

/-! ## Main-loop state machine (src/iv.c lines 570-611, `focus_view`
lines 457-481)

One iteration of the `while (running)` loop, as a function of the list
of remaining input bytes (the empty list models end-of-input, where
`read_keypress` returns `EOF`).  `focusOk` models whether
`generate_focus` succeeds for the selected item: on failure
`focus_view` returns at once without reading input. -/

inductive ViewerMode where
  | grid
  | focus
deriving DecidableEq, Repr

structure LoopState where
  mode : ViewerMode
  selected : Nat
  scroll : Int
  running : Bool
deriving DecidableEq, Repr

/-- `ViewerMode mode = MODE_GRID; int selected = 0; int running = 1;`
with the global `static int scroll_offset = 0`. -/
def initState : LoopState :=
  { mode := ViewerMode.grid, selected := 0, scroll := 0, running := true }

/-- The key-consuming loop of `focus_view` (lines 470-475): read until
ESC (27), `'q'` (113) or end-of-input. -/
def focusDrain : List Nat → List Nat
  | [] => []
  | ch :: rest => if ch = 27 ∨ ch = 113 then rest else focusDrain rest

/-- One iteration of the main loop: grid mode adjusts the scroll, renders
(whose re-clamp is the same `clampScroll`) and dispatches one keystroke;
focus mode runs `focus_view` — which consumes keystrokes up to ESC,
`'q'` or end-of-input only when `generate_focus` succeeded — and then
sets `mode = MODE_GRID`. -/
def stepIter (count cols wsRow : Nat) (focusOk : Bool) (s : LoopState)
    (input : List Nat) : LoopState × List Nat :=
  if s.running = false then (s, input)
  else match s.mode with
  | ViewerMode.grid =>
    let so1 := adjust_scroll_for_selection count cols s.selected wsRow s.scroll
    let so2 := clampScroll (totalRows count cols) (visibleRows wsRow) so1
    match input with
    | [] => ({ s with scroll := so2, running := false }, [])
    | ch :: rest =>
      if ch = 113 then ({ s with scroll := so2, running := false }, rest)
      else if ch = 10 ∨ ch = 13 then
        ({ s with scroll := so2, mode := ViewerMode.focus }, rest)
      else
        ({ s with
            scroll := so2
            selected := gridKey count cols s.selected ch }, rest)
  | ViewerMode.focus =>
    ({ s with mode := ViewerMode.grid },
     if focusOk then focusDrain input else input)

/-- C7: the state machine starts in grid mode with selection 0; an
iteration can only end in focus mode if it started in grid mode on an
Enter keystroke (`'\n'` or `'\r'`); every iteration starting in focus
mode returns to grid mode; and an iteration can stop the loop only from
grid mode. -/
theorem c7_mode_machine (count cols wsRow : Nat) (focusOk : Bool)
    (mode : ViewerMode) (sel : Nat) (sc : Int) (input : List Nat) :
    (initState.mode = ViewerMode.grid ∧ initState.selected = 0 ∧
      initState.running = true) ∧
    ((stepIter count cols wsRow focusOk ⟨mode, sel, sc, true⟩ input).1.mode =
        ViewerMode.focus →
      mode = ViewerMode.grid ∧
      ∃ rest, input = 10 :: rest ∨ input = 13 :: rest) ∧
    (mode = ViewerMode.focus →
      (stepIter count cols wsRow focusOk ⟨mode, sel, sc, true⟩ input).1.mode =
        ViewerMode.grid) ∧
    ((stepIter count cols wsRow focusOk ⟨mode, sel, sc, true⟩ input).1.running =
        false →
      mode = ViewerMode.grid) := by
  refine ⟨⟨rfl, rfl, rfl⟩, ?_, ?_, ?_⟩
  · intro hstep
    cases mode
    · cases input with
      | nil => simp [stepIter] at hstep
      | cons ch rest =>
        by_cases h1 : ch = 113
        · simp [stepIter, h1] at hstep
        · by_cases h2 : ch = 10 ∨ ch = 13
          · refine ⟨rfl, rest, ?_⟩
            rcases h2 with h | h
            · exact Or.inl (by rw [h])
            · exact Or.inr (by rw [h])
          · simp [stepIter, h1, h2] at hstep
    · simp [stepIter] at hstep
  · intro hmode
    subst hmode
    simp [stepIter]
  · intro hstep
    cases mode
    · rfl
    · simp [stepIter] at hstep

/-- C10: if generating the full-size focus image fails, the focus-mode
iteration returns to grid mode immediately: it consumes no input, does
not stop the loop, and leaves the selection and the scroll offset
unchanged. -/
theorem c10_focus_failure (count cols wsRow : Nat) (s : LoopState)
    (input : List Nat) (hrun : s.running = true)
    (hmode : s.mode = ViewerMode.focus) :
    stepIter count cols wsRow false s input =
      ({ s with mode := ViewerMode.grid }, input) := by
  cases s with
  | mk mode selected scroll running =>
    cases running
    · exact absurd hrun (by simp)
    · cases mode
      · exact absurd hmode (by simp)
      · simp [stepIter]

theorem c10_focus_failure_witness :
    (LoopState.mk ViewerMode.focus 7 2 true).running = true ∧
    (LoopState.mk ViewerMode.focus 7 2 true).mode = ViewerMode.focus ∧
    stepIter 10 4 12 false (LoopState.mk ViewerMode.focus 7 2 true)
        [104, 113] =
      (LoopState.mk ViewerMode.grid 7 2 true, [104, 113]) :=
  ⟨rfl, rfl, c10_focus_failure 10 4 12 (LoopState.mk ViewerMode.focus 7 2 true)
    [104, 113] rfl rfl⟩

/-! ## CLI startup and its error paths (src/iv.c `main`, lines 519-559)

The observable effects of the startup section, up to entering the UI:
messages written to standard error (`fprintf(stderr, ...)` and
`perror`), enabling raw mode, and the first repaint.  `missingArg`
models `optind >= argc`; `firstIsDir` models
`stat(argv[optind]) == 0 && S_ISDIR(st.st_mode)`; `dirReadable` models
`opendir` succeeding; `entries` is the directory's regular non-hidden
file list; `argPaths` are the positional arguments treated as files.
`EXIT_FAILURE = 1`. -/

inductive Eff where
  | stderrMsg (s : String)
  | perrorCall (s : String)
  | enableRaw
  | render
deriving DecidableEq, Repr

def usageMsg (argv0 : String) : String :=
  "Usage: " ++ argv0 ++ " [-c columns] [directory or imagefiles...]\n"

def mainStartup (argv0 : String) (missingArg firstIsDir dirReadable : Bool)
    (entries argPaths : List String) : List Eff × Except Nat (List String) :=
  if missingArg then
    ([Eff.stderrMsg (usageMsg argv0)], Except.error 1)
  else if firstIsDir && !dirReadable then
    ([Eff.perrorCall "opendir", Eff.stderrMsg "Could not read directory.\n"],
     Except.error 1)
  else
    let items := if firstIsDir then entries else argPaths
    if items.isEmpty then
      ([Eff.stderrMsg "No images found.\n"], Except.error 1)
    else
      ([Eff.enableRaw, Eff.render], Except.ok items)

/-- C9 counterexample: on an unreadable input directory the program does
exit non-zero, but the text it writes to standard error is the error
message `Could not read directory.`, not the usage message the claim
states. -/
theorem c9_counterexample :
    (mainStartup "iv" false true false ["a.png"] []).2 = Except.error 1 ∧
    (mainStartup "iv" false true false ["a.png"] []).1 =
      [Eff.perrorCall "opendir",
       Eff.stderrMsg "Could not read directory.\n"] ∧
    ¬ Eff.stderrMsg (usageMsg "iv") ∈
      (mainStartup "iv" false true false ["a.png"] []).1 := by
  refine ⟨rfl, rfl, ?_⟩
  decide

/-- C9 (amended): when the positional argument is missing the program
writes the usage message to standard error and exits non-zero; when the
input directory is unreadable it writes an error message
(`Could not read directory.`) to standard error and exits non-zero; when
the resulting item list is empty (from a directory or from the argument
list) it writes `No images found.` and exits non-zero — in every case
before enabling raw mode or rendering any UI. -/
theorem c9_startup_errors (argv0 : String) (dirReadable : Bool)
    (entries argPaths : List String) :
    (∀ (fd dr : Bool) (e p : List String),
      mainStartup argv0 true fd dr e p =
        ([Eff.stderrMsg (usageMsg argv0)], Except.error 1)) ∧
    (mainStartup argv0 false true false entries argPaths =
      ([Eff.perrorCall "opendir",
        Eff.stderrMsg "Could not read directory.\n"], Except.error 1)) ∧
    (mainStartup argv0 false true true [] argPaths =
      ([Eff.stderrMsg "No images found.\n"], Except.error 1)) ∧
    (mainStartup argv0 false false dirReadable entries [] =
      ([Eff.stderrMsg "No images found.\n"], Except.error 1)) :=
  ⟨fun _ _ _ _ => rfl, rfl, rfl, rfl⟩

end IV
